import Mathlib

/-!
Verification development for the langchain_sql_example repository
(src/ask.ts, src/file.ts).

The repository turns a natural-language question into SQL via an LLM.
The verifiable core is pure data-processing logic:

* the query-capture fold inside `agent_results` (ask.ts lines 111-165,
  duplicated in file.ts lines 284-337), which observes the agent's
  message stream and assembles an `AgentResult`;
* the result assembly of `generate_sql_query` (ask.ts lines 64-73);
* `formatJsonAsMarkdownTable` (file.ts lines 208-242);
* the CLI entry `main` / `askQuestion` (ask.ts lines 182-236).

External collaborators (the LLM, the database, the langgraph agent
driver) are abstracted as parameters.  JavaScript built-ins that the
code relies on (`JSON.parse`, `String(value)`, property access
`row[header]`) are modelled explicitly below, restricted to integer
numerals (the repository never manipulates fractional JSON numbers;
floating point is outside this model).
-/

namespace SqlAgent

/-- Model of a JavaScript JSON value as produced by `JSON.parse`:
`null`, booleans, numbers (restricted to integers in this model),
strings, arrays and objects.  Object fields are kept in first-occurrence
order with later duplicate keys overwriting the stored value, matching
`JSON.parse` semantics. -/
inductive Json where
  | null
  | bool (b : Bool)
  | num (n : Int)
  | str (s : String)
  | arr (elems : List Json)
  | obj (fields : List (String × Json))
deriving Repr, BEq

/-- Whitespace accepted between JSON tokens (space, tab, newline,
carriage return), as in the JSON grammar. -/
def isJsonWs (c : Char) : Bool :=
  c == ' ' || c == '\t' || c == '\n' || c == '\r'

/-- Drops leading JSON whitespace. -/
def skipWs : List Char → List Char
  | [] => []
  | c :: cs => if isJsonWs c then skipWs cs else c :: cs

/-- Consumes a run of decimal digits, accumulating their value. -/
def takeDigits : Nat → List Char → Nat × List Char
  | acc, [] => (acc, [])
  | acc, c :: cs =>
    if c.isDigit then takeDigits (acc * 10 + (c.toNat - 48)) cs
    else (acc, c :: cs)

/-- Parses the integer part of a JSON number (no sign): a single `0`,
or a nonzero digit followed by digits.  Rejects leading zeros, as
`JSON.parse` does. -/
def parseIntDigits : List Char → Option (Nat × List Char)
  | [] => none
  | c :: cs =>
    if c == '0' then
      match cs with
      | d :: _ => if d.isDigit then none else some (0, cs)
      | [] => some (0, [])
    else if c.isDigit then some (takeDigits (c.toNat - 48) cs)
    else none

/-- Parses a JSON number.  This model accepts integer numerals only;
a fraction or exponent part is rejected (the repository's data never
contains them). -/
def parseNumber (cs : List Char) : Option (Int × List Char) :=
  let (neg, cs1) : Bool × List Char :=
    match cs with
    | '-' :: rest => (true, rest)
    | _ => (false, cs)
  match parseIntDigits cs1 with
  | none => none
  | some (n, rest) =>
    match rest with
    | c :: _ =>
      if c == '.' || c == 'e' || c == 'E' then none
      else some (if neg then -(n : Int) else (n : Int), rest)
    | [] => some (if neg then -(n : Int) else (n : Int), rest)

/-- Value of a hexadecimal digit, if any. -/
def hexVal (c : Char) : Option Nat :=
  if c.isDigit then some (c.toNat - 48)
  else if 'a' ≤ c && c ≤ 'f' then some (c.toNat - 87)
  else if 'A' ≤ c && c ≤ 'F' then some (c.toNat - 55)
  else none

/-- Parses the body of a JSON string after the opening quote, handling
the escape sequences of the JSON grammar, up to and including the
closing quote.  Raw control characters below 0x20 are rejected, as in
`JSON.parse`. -/
def parseStrAux : List Char → Option (List Char × List Char)
  | [] => none
  | '"' :: cs => some ([], cs)
  | '\\' :: cs =>
    match cs with
    | [] => none
    | e :: cs2 =>
      if e == 'u' then
        match cs2 with
        | h1 :: h2 :: h3 :: h4 :: cs3 =>
          match hexVal h1, hexVal h2, hexVal h3, hexVal h4 with
          | some a, some b, some c, some d =>
            match parseStrAux cs3 with
            | some (body, rest) =>
              some (Char.ofNat (((a * 16 + b) * 16 + c) * 16 + d) :: body, rest)
            | none => none
          | _, _, _, _ => none
        | _ => none
      else
        let dec : Option Char :=
          if e == '"' then some '"'
          else if e == '\\' then some '\\'
          else if e == '/' then some '/'
          else if e == 'b' then some (Char.ofNat 8)
          else if e == 'f' then some (Char.ofNat 12)
          else if e == 'n' then some '\n'
          else if e == 'r' then some '\r'
          else if e == 't' then some '\t'
          else none
        match dec with
        | none => none
        | some c =>
          match parseStrAux cs2 with
          | some (body, rest) => some (c :: body, rest)
          | none => none
  | c :: cs =>
    if c.toNat < 32 then none
    else
      match parseStrAux cs with
      | some (body, rest) => some (c :: body, rest)
      | none => none

/-- Inserts a field into an object under construction with `JSON.parse`
duplicate-key semantics: a repeated key keeps its first position but
takes the later value. -/
def insertField (fields : List (String × Json)) (k : String) (v : Json) :
    List (String × Json) :=
  match fields with
  | [] => [(k, v)]
  | (k2, v2) :: rest =>
    if k2 == k then (k2, v) :: rest else (k2, v2) :: insertField rest k v

mutual

/-- Recursive-descent parser for a JSON value, fuel-indexed to make
termination structural.  Models ECMAScript `JSON.parse` (restricted to
integer numerals). -/
def parseValue : Nat → List Char → Option (Json × List Char)
  | 0, _ => none
  | fuel + 1, cs =>
    match skipWs cs with
    | [] => none
    | c :: rest =>
      if c == 'n' then
        match rest with
        | 'u' :: 'l' :: 'l' :: r => some (Json.null, r)
        | _ => none
      else if c == 't' then
        match rest with
        | 'r' :: 'u' :: 'e' :: r => some (Json.bool true, r)
        | _ => none
      else if c == 'f' then
        match rest with
        | 'a' :: 'l' :: 's' :: 'e' :: r => some (Json.bool false, r)
        | _ => none
      else if c == '"' then
        match parseStrAux rest with
        | some (body, r) => some (Json.str (String.mk body), r)
        | none => none
      else if c == '[' then
        match skipWs rest with
        | ']' :: r => some (Json.arr [], r)
        | r2 =>
          match parseItems fuel r2 [] with
          | some (xs, r) => some (Json.arr xs, r)
          | none => none
      else if c == '\x7b' then
        match skipWs rest with
        | '\x7d' :: r => some (Json.obj [], r)
        | r2 =>
          match parseFields fuel r2 [] with
          | some (fs, r) => some (Json.obj fs, r)
          | none => none
      else if c == '-' || c.isDigit then
        match parseNumber (c :: rest) with
        | some (n, r) => some (Json.num n, r)
        | none => none
      else none

/-- Parses the remaining comma-separated elements of a JSON array, up
to and including the closing bracket. -/
def parseItems : Nat → List Char → List Json → Option (List Json × List Char)
  | 0, _, _ => none
  | fuel + 1, cs, acc =>
    match parseValue fuel cs with
    | none => none
    | some (v, rest) =>
      match skipWs rest with
      | ',' :: rest2 => parseItems fuel rest2 (acc ++ [v])
      | ']' :: rest2 => some (acc ++ [v], rest2)
      | _ => none

/-- Parses the remaining comma-separated members of a JSON object, up
to and including the closing brace. -/
def parseFields : Nat → List Char → List (String × Json) →
    Option (List (String × Json) × List Char)
  | 0, _, _ => none
  | fuel + 1, cs, acc =>
    match skipWs cs with
    | '"' :: cs2 =>
      match parseStrAux cs2 with
      | none => none
      | some (keyBody, afterKey) =>
        match skipWs afterKey with
        | ':' :: afterColon =>
          match parseValue fuel afterColon with
          | none => none
          | some (v, rest) =>
            let acc2 := insertField acc (String.mk keyBody) v
            match skipWs rest with
            | ',' :: rest2 => parseFields fuel rest2 acc2
            | '\x7d' :: rest2 => some (acc2, rest2)
            | _ => none
        | _ => none
    | _ => none

end

/-- Result of applying the arguments of `JSON.parse` to a whole string:
the parsed value, provided the entire input (up to trailing whitespace)
is consumed.  `none` models a thrown `SyntaxError`. -/
def parseJson (s : String) : Option Json :=
  let cs := s.toList
  match parseValue (2 * cs.length + 4) cs with
  | none => none
  | some (v, rest) => if (skipWs rest).isEmpty then some v else none

/-! ### JavaScript value-to-string conversion and property access

`formatJsonAsMarkdownTable` applies `String(value)` to cell values and
reads `row[header]`; both are JavaScript built-ins modelled here for
values produced by `JSON.parse`. -/

mutual

/-- Models `String(value)` for a `JSON.parse`-produced value: numbers
and booleans print canonically, strings print verbatim, arrays print as
their elements joined by commas (with `null` elements blank, as in
`Array.prototype.join`), plain objects print as `[object Object]`. -/
def jsString : Json → String
  | Json.null => "null"
  | Json.bool true => "true"
  | Json.bool false => "false"
  | Json.num n => toString n
  | Json.str s => s
  | Json.arr xs => String.intercalate "," (jsStringList xs)
  | Json.obj _ => "[object Object]"

/-- Element-wise rendering for `Array.prototype.join`: `null` becomes
the empty string, any other element renders with `jsString`. -/
def jsStringList : List Json → List String
  | [] => []
  | Json.null :: xs => "" :: jsStringList xs
  | x :: xs => jsString x :: jsStringList xs

end

/-- First value stored under a key in an object's field list, if any
(field lists built by `parseJson` have distinct keys). -/
def lookupField : List (String × Json) → String → Option Json
  | [], _ => none
  | (k, v) :: rest, key => if k == key then some v else lookupField rest key

/-- Canonical array-index reading of a property name: a string of
digits with no leading zero (JavaScript treats exactly these as index
properties of arrays and strings). -/
def canonicalIndex (s : String) : Option Nat :=
  match s.toList with
  | [] => none
  | c :: cs =>
    if c == '0' then (if cs.isEmpty then some 0 else none)
    else if c.isDigit && cs.all (fun d => d.isDigit) then
      some ((c :: cs).foldl (fun a d => a * 10 + (d.toNat - 48)) 0)
    else none

/-- Models the JavaScript property access `row[header]` on a
`JSON.parse`-produced value: objects look the key up, arrays and
strings expose `length` and their index properties, numbers and
booleans have no own properties (`undefined`, modelled as `none`), and
accessing a property of `null` throws a `TypeError`, modelled as
`Except.error`. -/
def getProp : Json → String → Except String (Option Json)
  | Json.null, _ => Except.error "TypeError: Cannot read properties of null"
  | Json.obj fields, k => Except.ok (lookupField fields k)
  | Json.arr xs, k =>
    if k == "length" then Except.ok (some (Json.num xs.length))
    else
      match canonicalIndex k with
      | some i => Except.ok (xs.get? i)
      | none => Except.ok none
  | Json.str s, k =>
    if k == "length" then Except.ok (some (Json.num s.length))
    else
      match canonicalIndex k with
      | some i => Except.ok ((s.toList.get? i).map (fun c => Json.str (String.mk [c])))
      | none => Except.ok none
  | _, _ => Except.ok none

/-! ### formatJsonAsMarkdownTable (file.ts lines 208-242) -/

/-- One table cell, from file.ts line 231-234: `row[header]` rendered
with `String(value)` unless the value is `null` or `undefined`, which
render as the empty string.  The `Except` propagates the `TypeError`
thrown when `row` is `null`. -/
def renderCell (row : Json) (header : String) : Except String String :=
  match getProp row header with
  | Except.error e => Except.error e
  | Except.ok none => Except.ok ""
  | Except.ok (some Json.null) => Except.ok ""
  | Except.ok (some v) => Except.ok (jsString v)

/-- Models `array.map(f)` when `f` can throw: the callback runs left to
right and the first thrown error propagates. -/
def mapExcept (f : α → Except ε β) : List α → Except ε (List β)
  | [] => Except.ok []
  | a :: l =>
    match f a with
    | Except.error e => Except.error e
    | Except.ok b =>
      match mapExcept f l with
      | Except.error e => Except.error e
      | Except.ok bs => Except.ok (b :: bs)

/-- One table data row, from file.ts lines 230-236. -/
def renderRow (headers : List String) (row : Json) : Except String String :=
  match mapExcept (renderCell row) headers with
  | Except.error e => Except.error e
  | Except.ok values => Except.ok ("| " ++ String.intercalate " | " values ++ " |")

/-- Models `Object.keys(firstRow)` for the values that reach it in
`formatJsonAsMarkdownTable` (objects and arrays; `typeof` filtering has
already excluded the rest). -/
def objKeys : Json → List String
  | Json.obj fields => fields.map Prod.fst
  | Json.arr xs => (List.range xs.length).map (fun i => toString i)
  | _ => []

/-- Is `typeof v === "object" && v !== null` true for this value?
In JavaScript both plain objects and arrays have `typeof` `"object"`. -/
def isObjectType : Json → Bool
  | Json.obj _ => true
  | Json.arr _ => true
  | _ => false

/-- Embedding of `formatJsonAsMarkdownTable` (file.ts lines 208-242):
parse the input, reject non-arrays and empty arrays, reject a
non-object first row, take the headers from the first row's keys, and
render header, separator and data rows; the surrounding `try`/`catch`
turns any thrown error (a JSON `SyntaxError`, or the `TypeError` from
indexing a `null` row) into an `"Error formatting data as table: "`
message. -/
def formatJsonAsMarkdownTable (jsonString : String) : String :=
  match parseJson jsonString with
  | none => "Error formatting data as table: " ++ "SyntaxError: Unexpected token in JSON"
  | some data =>
    match data with
    | Json.arr [] => "No tabular data available"
    | Json.arr (firstRow :: rest) =>
      if isObjectType firstRow then
        let headers := objKeys firstRow
        let headerRow := "| " ++ String.intercalate " | " headers ++ " |"
        let separatorRow :=
          "| " ++ String.intercalate " | " (headers.map (fun _ => "---")) ++ " |"
        match mapExcept (renderRow headers) (firstRow :: rest) with
        | Except.ok dataRows =>
          String.intercalate "\n" (headerRow :: separatorRow :: dataRows)
        | Except.error e => "Error formatting data as table: " ++ e
      else "Data is not in tabular format"
    | _ => "No tabular data available"

/-! ### Message model and the query-capture fold of `agent_results`
(ask.ts lines 111-165, duplicated verbatim in file.ts lines 284-337)

The langgraph stream with `streamMode: "values"` yields the growing
message list; the loop body inspects `step.messages[len - 1]` each
time, so the observation logic is a fold over the sequence of last
messages.  That sequence is the `List Message` argument below; the
stream driver itself (network, LLM) stays external. -/

/-- One tool-call request carried by an assistant message.  The field
`input` models `tc.args?.input`: `none` when `args` or `args.input` is
absent, `some s` when present (JavaScript truthiness of a present
string is non-emptiness). -/
structure ToolCall where
  name : String
  input : Option String
deriving Repr, BEq

/-- Role-tagged message as observed by the capture loop:
`_getType()` is `"ai"`, `"tool"` or `"human"`; ai messages carry
`tool_calls` (an absent field modelled as `[]`), tool messages carry
the answering tool's `name` and string `content`. -/
inductive Message where
  | ai (content : String) (tool_calls : List ToolCall)
  | tool (name : String) (content : String)
  | user (content : String)
deriving Repr, BEq

/-- One captured query, the `QueryResult` interface of ask.ts lines
41-44.  The TypeScript declaration gives `result` the type
`Record<string, any>[]`, but `JSON.parse` is untyped and the agent path
assigns the parsed value directly, so the runtime field can hold any
JSON value; it is therefore modelled as `Json`. -/
structure QueryResult where
  query : String
  result : Json
deriving Repr, BEq

/-- The `AgentResult` interface of ask.ts lines 76-79. -/
structure AgentResult where
  queries : List QueryResult
  finalAnswer : String
deriving Repr, BEq

/-- The three mutable locals of `agent_results` (ask.ts lines
111-113): `queries`, `agentResponse` and `currentQuery` (the
PendingQuery; the empty string is its cleared state and is falsy). -/
structure CaptureState where
  queries : List QueryResult
  agentResponse : String
  currentQuery : String
deriving Repr, BEq

/-- JavaScript truthiness of `tc.args?.input`: present and non-empty. -/
def truthyInput : Option String → Bool
  | none => false
  | some s => s != ""

/-- Does the request target one of the two query-carrying tools and
hold a truthy query text?  This is the guard of ask.ts lines 126-129. -/
def isCaptureCall (tc : ToolCall) : Bool :=
  (tc.name == "query-sql" || tc.name == "query-checker") && truthyInput tc.input

/-- The inner `for (const tc of toolCalls)` of ask.ts lines 125-132:
each matching request overwrites `currentQuery`, so the last one in
iteration order wins. -/
def updatePending (cur : String) (tcs : List ToolCall) : String :=
  tcs.foldl (fun q tc => if isCaptureCall tc then tc.input.getD "" else q) cur

/-- Fallback row list pushed when `JSON.parse` throws (ask.ts lines
145-148): `[ \x7b result: content \x7d ]`. -/
def fallbackRows (content : String) : Json :=
  Json.arr [Json.obj [("result", Json.str content)]]

/-- One iteration of the `for await` body of `agent_results` (ask.ts
lines 118-159), acting on the newly observed last message:

* an ai message with a non-empty `tool_calls` list updates
  `currentQuery` through `updatePending` (lines 120-133);
* a tool message named `query-sql`, while `currentQuery` is truthy,
  pushes `\x7b query, result: JSON.parse(content) \x7d` — or the
  `fallbackRows` on a parse error — and clears `currentQuery`
  (lines 135-152);
* an ai message with zero tool calls overwrites `agentResponse` with
  its content (lines 154-159; the condition
  `!(tool_calls?.length || 0 > 0)` evaluates to "no tool calls");
* other messages change nothing. -/
def processMessage (st : CaptureState) (m : Message) : CaptureState :=
  match m with
  | Message.ai content tcs =>
    if tcs.length != 0 then
      { st with currentQuery := updatePending st.currentQuery tcs }
    else
      { st with agentResponse := content }
  | Message.tool name content =>
    if name == "query-sql" && st.currentQuery != "" then
      match parseJson content with
      | some v =>
        { st with
          queries := st.queries ++ [{ query := st.currentQuery, result := v }]
          currentQuery := "" }
      | none =>
        { st with
          queries :=
            st.queries ++ [{ query := st.currentQuery, result := fallbackRows content }]
          currentQuery := "" }
    else st
  | Message.user _ => st

/-- The full observation pass of `agent_results` over the stream of
last messages, returning the assembled `AgentResult` (ask.ts lines
111-165). -/
def agent_results_capture (msgs : List Message) : AgentResult :=
  let st := msgs.foldl processMessage ⟨[], "", ""⟩
  ⟨st.queries, st.agentResponse⟩

/-! ### Result assembly of `generate_sql_query` (ask.ts lines 64-73)

The LLM call and the tool execution are external; what remains is how
the function turns the tool's output string into a `QueryResult`:
`JSON.parse` with no `try`/`catch` (a parse error propagates), then
`Array.isArray(parsedResult) ? parsedResult : [parsedResult]`. -/

/-- Embedding of ask.ts lines 66-73 given the generated query text and
the string returned by `QuerySqlTool.invoke`.  `Except.error` models
the uncaught `SyntaxError` from `JSON.parse`. -/
def generate_sql_query_result (query : String) (toolOutput : String) :
    Except String QueryResult :=
  match parseJson toolOutput with
  | none => Except.error "SyntaxError: Unexpected token in JSON"
  | some parsedResult =>
    match parsedResult with
    | Json.arr xs => Except.ok { query := query, result := Json.arr xs }
    | v => Except.ok { query := query, result := Json.arr [v] }

/-! ### CLI surface (ask.ts lines 182-236)

`main` reads `process.argv[2]`; a falsy value prints the usage text and
calls `process.exit(1)`.  Otherwise `askQuestion` runs with its whole
body inside `try \x7b ... \x7d catch (error) \x7b console.error(...) \x7d`,
so every propagated error is logged and swallowed; `main` then returns
normally and the process exits with code 0 (`main().catch` only logs). -/

/-- Observable outcome of one CLI invocation. -/
structure CliResult where
  exitCode : Nat
  printedUsage : Bool
  loggedError : Bool
deriving Repr, BEq

/-- JavaScript truthiness of `process.argv[2]`: present and
non-empty. -/
def truthyArg : Option String → Bool
  | none => false
  | some s => s != ""

/-- Embedding of `main` (ask.ts lines 225-236) composed with
`askQuestion` (lines 182-223).  `runOutcome` abstracts the fallible
work of `askQuestion`'s `try` block — database setup, the structured
LLM call and SQL execution inside `generate_sql_query`, and
`agent_results` — as a single `Except`: `Except.error` is any error
propagating out of those calls. -/
def mainCli (argv2 : Option String) (runOutcome : Except String Unit) : CliResult :=
  if truthyArg argv2 then
    match runOutcome with
    | Except.ok _ => { exitCode := 0, printedUsage := false, loggedError := false }
    | Except.error _ => { exitCode := 0, printedUsage := false, loggedError := true }
  else
    { exitCode := 1, printedUsage := true, loggedError := false }

/-! ### The reasoning loop and its cycle bound (spec section 4.3)

The repository delegates the loop to langgraph's `createReactAgent`
(ask.ts lines 96-117); no code under src/ implements the loop body or
its bound, so it is modelled from the spec. -/

/-- Modelled from the spec: section 4.3's reasoning loop error taxonomy
entry for an exceeded cycle budget (`AgentDidNotConverge`); the loop
implementation is missing from src/ (it lives in the external
`createReactAgent`). -/
inductive AgentError where
  | agentDidNotConverge
deriving Repr, BEq

/-- Modelled from the spec: the external collaborators of the section
4.3 loop — the LLM (full history in, one assistant message out:
content plus tool-call requests) and the tool registry (name and
argument in, output text out, never a thrown fault). -/
structure LoopConfig where
  llm : List Message → String × List ToolCall
  tools : String → String → String

/-- Modelled from the spec: the per-cycle transition of section 4.3,
indexed by the remaining cycle budget.  Each cycle sends the history to
the LLM and appends its response; zero tool-call requests is terminal,
otherwise every requested tool runs in order and its result message is
appended, and the loop repeats.  An exhausted budget fails with
`AgentDidNotConverge`.  The second component counts the cycles (LLM
calls) performed. -/
def runLoopAux : Nat → LoopConfig → List Message → Nat →
    Except AgentError (List Message × String) × Nat
  | 0, _, _, used => (Except.error AgentError.agentDidNotConverge, used)
  | fuel + 1, cfg, hist, used =>
    let step := cfg.llm hist
    let hist2 := hist ++ [Message.ai step.1 step.2]
    if step.2.isEmpty then
      (Except.ok (hist2, step.1), used + 1)
    else
      let hist3 :=
        hist2 ++ step.2.map (fun tc => Message.tool tc.name (cfg.tools tc.name (tc.input.getD "")))
      runLoopAux fuel cfg hist3 (used + 1)

/-- Modelled from the spec: the section 4.3 loop on an initial user
message, with configurable cycle bound. -/
def runLoop (bound : Nat) (cfg : LoopConfig) (question : String) :
    Except AgentError (List Message × String) × Nat :=
  runLoopAux bound cfg [Message.user question] 0

/-! ### Claim-side auxiliary predicates -/

/-- Is this a tool message named `query-sql`? -/
def isQuerySqlTool : Message → Bool
  | Message.tool name _ => name == "query-sql"
  | _ => false

/-- Counts the tool messages named `query-sql` in an observed stream. -/
def countQuerySql (msgs : List Message) : Nat :=
  msgs.countP isQuerySqlTool

/-- Is this an assistant message with zero tool-call requests (the
final-answer shape)? -/
def isAnswerMsg : Message → Bool
  | Message.ai _ [] => true
  | _ => false

/-- Stubbed collaborators for the cycle-bound scenario: an LLM that
always requests one `query-sql` call and a tool registry that always
answers `"[1]"`. -/
def alwaysToolStub : LoopConfig :=
  ⟨fun _ => ("thinking", [⟨"query-sql", some "SELECT 1"⟩]), fun _ _ => "[1]"⟩

/-! ## Theorems -/

/-- Claim C1, evaluated at its failing input.  A `query-sql` tool
message whose content parses to the single JSON object with field
`a = 1`, arriving while the PendingQuery `"SELECT * FROM T"` is held,
makes the code store the bare parsed object as `result` — not the
one-element sequence the claim (and the declared
`Record<string, any>[]` type of `QueryResult.result`, and the wrapping
performed by `generate_sql_query` on the direct path) requires.  The
parse-failure half of the claim does hold: non-JSON content is stored
as `fallbackRows content`. -/
theorem C1_object_unwrapped_eval :
    (agent_results_capture
      [Message.ai "" [⟨"query-sql", some "SELECT * FROM T"⟩],
       Message.tool "query-sql" "\x7b\"a\":1\x7d"]).queries =
      [{ query := "SELECT * FROM T", result := Json.obj [("a", Json.num 1)] }] ∧
    (∀ xs, Json.obj [("a", Json.num 1)] ≠ Json.arr xs) ∧
    (agent_results_capture
      [Message.ai "" [⟨"query-sql", some "SELECT * FROM T"⟩],
       Message.tool "query-sql" "not json"]).queries =
      [{ query := "SELECT * FROM T", result := fallbackRows "not json" }] :=
  ⟨rfl, fun _ h => Json.noConfusion h, rfl⟩

/-- Claim C2 is false as stated: `"5"` is valid JSON (`JSON.parse`
returns the number `5`), so the fallback does not fire and the captured
result is not `[ \x7b result: "5" \x7d ]`. -/
theorem C2_counterexample :
    (agent_results_capture
      [Message.ai "" [⟨"query-sql", some "SELECT COUNT(*) FROM Employee"⟩],
       Message.tool "query-sql" "5"]).queries =
      [{ query := "SELECT COUNT(*) FROM Employee", result := Json.num 5 }] ∧
    Json.num 5 ≠ fallbackRows "5" :=
  ⟨rfl, fun h => Json.noConfusion h⟩

/-- Claim C2 as amended: with a PendingQuery held, a `query-sql` tool
message whose content is `"5"` parses successfully and is captured as
the JSON number `5`; the `[ \x7b result: content \x7d ]` fallback fires
only for content that is not valid JSON, such as `"five"`. -/
theorem C2_amended_capture :
    (agent_results_capture
      [Message.ai "" [⟨"query-sql", some "SELECT COUNT(*) FROM Invoice"⟩],
       Message.tool "query-sql" "5"]).queries =
      [{ query := "SELECT COUNT(*) FROM Invoice", result := Json.num 5 }] ∧
    parseJson "5" = some (Json.num 5) ∧
    parseJson "five" = none ∧
    (agent_results_capture
      [Message.ai "" [⟨"query-sql", some "SELECT COUNT(*) FROM Invoice"⟩],
       Message.tool "query-sql" "five"]).queries =
      [{ query := "SELECT COUNT(*) FROM Invoice", result := fallbackRows "five" }] :=
  ⟨rfl, rfl, rfl, rfl⟩

/-- Claim C7: when a `query-sql` tool result's content is valid JSON
array text, the emitted `QueryResult` stores exactly the parsed array
as its rows (parsing is a function of the text, so re-parsing the same
text yields the same rows). -/
theorem C7_array_roundtrip (st : CaptureState) (content : String) (xs : List Json)
    (hq : st.currentQuery ≠ "") (hp : parseJson content = some (Json.arr xs)) :
    (processMessage st (Message.tool "query-sql" content)).queries =
      st.queries ++ [{ query := st.currentQuery, result := Json.arr xs }] := by
  simp only [processMessage, hp]
  rw [if_pos]
  simp only [Bool.and_eq_true, beq_self_eq_true, bne_iff_ne, ne_eq, true_and]
  exact hq

/-- Witness for C7 at a concrete state and content. -/
theorem C7_array_roundtrip_witness :
    (processMessage ⟨[], "", "SELECT 1"⟩ (Message.tool "query-sql" "[1]")).queries =
      [{ query := "SELECT 1", result := Json.arr [Json.num 1] }] :=
  C7_array_roundtrip ⟨[], "", "SELECT 1"⟩ "[1]" [Json.num 1] (by decide) rfl

/-- A capture step appends at most one `QueryResult`, and only on a
`query-sql` tool message. -/
theorem processMessage_queries_length (st : CaptureState) (m : Message) :
    (processMessage st m).queries.length ≤
      st.queries.length + (if isQuerySqlTool m then 1 else 0) := by
  cases m with
  | ai content tcs =>
    simp only [processMessage, isQuerySqlTool]
    split <;> simp
  | tool name content =>
    simp only [processMessage, isQuerySqlTool]
    split
    · rename_i hguard
      have hname : (name == "query-sql") = true := by
        cases hn : name == "query-sql" <;> simp [hn] at hguard ⊢
      rw [if_pos hname]
      split <;> simp
    · split <;> simp
  | user content => simp [processMessage]

/-- Folding the capture step over a stream adds at most one
`QueryResult` per `query-sql` tool message observed. -/
theorem capture_foldl_length_le (msgs : List Message) : ∀ st : CaptureState,
    (msgs.foldl processMessage st).queries.length ≤
      st.queries.length + countQuerySql msgs := by
  induction msgs with
  | nil => intro st; simp [countQuerySql]
  | cons m ms ih =>
    intro st
    have h1 := ih (processMessage st m)
    have h2 := processMessage_queries_length st m
    have h3 : countQuerySql (m :: ms) =
        (if isQuerySqlTool m then 1 else 0) + countQuerySql ms := by
      cases hq : isQuerySqlTool m
      · simp [countQuerySql, List.countP_cons, hq]
      · simp [countQuerySql, List.countP_cons, hq]
        omega
    simp only [List.foldl_cons]
    omega

/-- Claim C4: the number of captured `QueryResult`s never exceeds the
number of `query-sql` tool messages observed; and a `query-sql` tool
message arriving while no PendingQuery is held (the falsy empty
string) emits nothing — the result is dropped, not fatal. -/
theorem C4_at_most_one_per_tool_message :
    (∀ msgs : List Message,
      (agent_results_capture msgs).queries.length ≤ countQuerySql msgs) ∧
    (∀ (st : CaptureState) (content : String), st.currentQuery = "" →
      processMessage st (Message.tool "query-sql" content) = st) := by
  constructor
  · intro msgs
    have := capture_foldl_length_le msgs ⟨[], "", ""⟩
    simpa [agent_results_capture] using this
  · intro st content h
    simp [processMessage, h]

/-- Witness for C4 on a stream whose only message is an unmatched
`query-sql` tool result. -/
theorem C4_witness :
    (agent_results_capture [Message.tool "query-sql" "[1]"]).queries.length ≤
      countQuerySql [Message.tool "query-sql" "[1]"] ∧
    processMessage ⟨[], "", ""⟩ (Message.tool "query-sql" "[1]") = ⟨[], "", ""⟩ :=
  ⟨C4_at_most_one_per_tool_message.1 _,
   C4_at_most_one_per_tool_message.2 ⟨[], "", ""⟩ "[1]" rfl⟩

/-- When a list of tool calls has no capture call, the inner loop of
the capture step leaves the pending query unchanged. -/
theorem updatePending_no_capture (tcs : List ToolCall)
    (h : tcs.filter isCaptureCall = []) (q : String) :
    updatePending q tcs = q := by
  induction tcs generalizing q with
  | nil => rfl
  | cons t ts ih =>
    rw [List.filter_cons] at h
    by_cases hc : isCaptureCall t
    · simp [hc] at h
    · simp only [updatePending, List.foldl_cons, if_neg hc] at *
      exact ih (by simpa [hc] using h) q

/-- The inner loop of the capture step records the query text of the
last capture call in the list. -/
theorem updatePending_last (tcs : List ToolCall) (tc : ToolCall)
    (h : (tcs.filter isCaptureCall).getLast? = some tc) (q : String) :
    updatePending q tcs = tc.input.getD "" := by
  induction tcs generalizing q with
  | nil => simp at h
  | cons t ts ih =>
    rw [List.filter_cons] at h
    by_cases hc : isCaptureCall t
    · simp only [if_pos hc] at h
      cases hts : ts.filter isCaptureCall with
      | nil =>
        rw [hts] at h
        simp only [List.getLast?_singleton, Option.some_inj] at h
        subst h
        simp only [updatePending, List.foldl_cons, if_pos hc]
        exact updatePending_no_capture ts hts _
      | cons x xs =>
        rw [hts, List.getLast?_cons_cons, ← hts] at h
        simp only [updatePending, List.foldl_cons, if_pos hc]
        exact ih h _
    · simp only [if_neg hc] at h
      simp only [updatePending, List.foldl_cons, if_neg hc]
      exact ih h q

/-- Claim C5: when one assistant message carries several tool-call
requests named `query-sql` or `query-checker` with truthy query text,
the PendingQuery recorded after the step is the query text of the last
such request in iteration order. -/
theorem C5_last_request_wins (st : CaptureState) (content : String)
    (tcs : List ToolCall) (tc : ToolCall)
    (h : (tcs.filter isCaptureCall).getLast? = some tc) :
    (processMessage st (Message.ai content tcs)).currentQuery = tc.input.getD "" := by
  have hne : tcs ≠ [] := by
    intro hnil
    rw [hnil] at h
    simp at h
  simp only [processMessage]
  rw [if_pos]
  · exact updatePending_last tcs tc h st.currentQuery
  · simpa [List.length_eq_zero] using hne

/-- Witness for C5: two capture calls in one assistant message; the
later one (`query-sql` with text `"Q2"`) wins. -/
theorem C5_last_request_wins_witness :
    (processMessage ⟨[], "", ""⟩
      (Message.ai "thinking"
        [⟨"query-checker", some "Q1"⟩, ⟨"query-sql", some "Q2"⟩])).currentQuery = "Q2" :=
  C5_last_request_wins ⟨[], "", ""⟩ "thinking"
    [⟨"query-checker", some "Q1"⟩, ⟨"query-sql", some "Q2"⟩]
    ⟨"query-sql", some "Q2"⟩ rfl

/-- A message that is not an answer-shaped assistant message leaves
`agentResponse` unchanged. -/
theorem processMessage_agentResponse (st : CaptureState) (m : Message)
    (h : isAnswerMsg m = false) :
    (processMessage st m).agentResponse = st.agentResponse := by
  cases m with
  | ai content tcs =>
    cases tcs with
    | nil => simp [isAnswerMsg] at h
    | cons t ts => simp [processMessage]
  | tool name content =>
    simp only [processMessage]
    split
    · split <;> rfl
    · rfl
  | user content => rfl

/-- Folding the capture over a stream whose last answer-shaped
assistant message has content `c` leaves `agentResponse = c`. -/
theorem capture_foldl_agentResponse (msgs : List Message) (c : String)
    (h : (msgs.filter isAnswerMsg).getLast? = some (Message.ai c [])) :
    ∀ st : CaptureState, (msgs.foldl processMessage st).agentResponse = c := by
  induction msgs using List.reverseRecOn with
  | nil => simp at h
  | append_singleton ms m ih =>
    intro st
    rw [List.foldl_append, List.foldl_cons, List.foldl_nil]
    rw [List.filter_append] at h
    cases hm : isAnswerMsg m
    · rw [List.filter_singleton, hm, cond_false, List.append_nil] at h
      rw [processMessage_agentResponse _ m hm]
      exact ih h st
    · rw [List.filter_singleton, hm, cond_true, List.getLast?_concat,
        Option.some_inj] at h
      subst h
      simp [processMessage]

/-- Claim C6: every answer-shaped assistant message (zero tool-call
requests) overwrites `finalAnswer` with its content, and the
`AgentResult` returned holds the content of the last such message. -/
theorem C6_final_answer :
    (∀ (st : CaptureState) (c : String),
      (processMessage st (Message.ai c [])).agentResponse = c) ∧
    (∀ (msgs : List Message) (c : String),
      (msgs.filter isAnswerMsg).getLast? = some (Message.ai c []) →
      (agent_results_capture msgs).finalAnswer = c) := by
  constructor
  · intro st c
    simp [processMessage]
  · intro msgs c h
    exact capture_foldl_agentResponse msgs c h _

/-- Witness for C6 on a stream with two answer-shaped assistant
messages; the later one provides the final answer. -/
theorem C6_final_answer_witness :
    (processMessage ⟨[], "", ""⟩ (Message.ai "partial" [])).agentResponse = "partial" ∧
    (agent_results_capture
      [Message.user "q", Message.ai "partial" [], Message.ai "done" []]).finalAnswer =
      "done" :=
  ⟨C6_final_answer.1 ⟨[], "", ""⟩ "partial",
   C6_final_answer.2 [Message.user "q", Message.ai "partial" [], Message.ai "done" []]
     "done" rfl⟩

/-- Claim C3: against an LLM that requests at least one tool call on
every turn, the section 4.3 loop performs exactly the configured bound
of cycles and then fails with `AgentDidNotConverge` — not before, not
after, and never diverging. -/
theorem C3_cycle_bound (bound : Nat) (cfg : LoopConfig) (question : String)
    (h : ∀ hist, (cfg.llm hist).2 ≠ []) :
    runLoop bound cfg question =
      (Except.error AgentError.agentDidNotConverge, bound) := by
  have key : ∀ (fuel : Nat) (hist : List Message) (used : Nat),
      runLoopAux fuel cfg hist used =
        (Except.error AgentError.agentDidNotConverge, used + fuel) := by
    intro fuel
    induction fuel with
    | zero => intro hist used; rfl
    | succ n ih =>
      intro hist used
      rw [runLoopAux]
      rw [if_neg (by simpa [List.isEmpty_iff] using h hist)]
      rw [ih]
      congr 1
      omega
  rw [runLoop, key
    bound [Message.user question] 0]
  congr 1
  omega

/-- Witness for C3 with bound 10 and the always-tool stub. -/
theorem C3_cycle_bound_witness :
    runLoop 10 alwaysToolStub "How many employees are there?" =
      (Except.error AgentError.agentDidNotConverge, 10) :=
  C3_cycle_bound 10 alwaysToolStub "How many employees are there?"
    (fun _ => List.cons_ne_nil _ _)

/-- Claim C8 is false as stated: with the question supplied, an error
propagating out of the answering work (here an SQL execution failure)
is caught and logged by `askQuestion`, and the process exits with code
0, not a non-zero code. -/
theorem C8_counterexample :
    mainCli (some "How many employees are there?")
        (Except.error "SqlExecutionError: no such table: Employe") =
      { exitCode := 0, printedUsage := false, loggedError := true } :=
  rfl

/-- Claim C8 as amended: a missing or empty positional argument exits
with code 1 and the usage message; with a truthy question argument the
process always exits with code 0 — a propagated error is caught and
logged, not converted into a non-zero exit code. -/
theorem C8_amended_cli (q : String) (r : Except String Unit) (e : String)
    (hq : q ≠ "") :
    mainCli none r = { exitCode := 1, printedUsage := true, loggedError := false } ∧
    (mainCli (some q) r).exitCode = 0 ∧
    mainCli (some q) (Except.error e) =
      { exitCode := 0, printedUsage := false, loggedError := true } := by
  have ht : truthyArg (some q) = true := by
    simp [truthyArg, hq]
  refine ⟨rfl, ?_, ?_⟩
  · cases r <;> simp [mainCli, ht]
  · simp [mainCli, ht]

/-- Witness for C8 as amended at a concrete question and error. -/
theorem C8_amended_cli_witness :
    mainCli none (Except.ok ()) =
      { exitCode := 1, printedUsage := true, loggedError := false } ∧
    (mainCli (some "How many?") (Except.ok ())).exitCode = 0 ∧
    mainCli (some "How many?") (Except.error "LLM failure") =
      { exitCode := 0, printedUsage := false, loggedError := true } := by
  have h := C8_amended_cli "How many?" (Except.ok ()) "LLM failure" (by decide)
  exact h

/-- Claim C9: the direct path's `generate_sql_query` has no textual
fallback — a tool output that is not valid JSON makes the function
fail with the propagated parse error; and every returned result holds
an array in its `result` field, a parsed non-array value being wrapped
in a one-element array. -/
theorem C9_no_textual_fallback (query : String) (s : String) :
    (parseJson s = none →
      generate_sql_query_result query s =
        Except.error "SyntaxError: Unexpected token in JSON") ∧
    (∀ r : QueryResult, generate_sql_query_result query s = Except.ok r →
      ∃ xs : List Json, r.result = Json.arr xs) ∧
    (∀ v : Json, parseJson s = some v → (∀ ys, v ≠ Json.arr ys) →
      generate_sql_query_result query s =
        Except.ok { query := query, result := Json.arr [v] }) := by
  refine ⟨?_, ?_, ?_⟩
  · intro h
    simp [generate_sql_query_result, h]
  · intro r hr
    rw [generate_sql_query_result] at hr
    cases hp : parseJson s with
    | none => rw [hp] at hr; exact absurd hr (by simp)
    | some v =>
      rw [hp] at hr
      cases v with
      | arr xs =>
        simp only [Except.ok.injEq] at hr
        exact ⟨xs, by rw [← hr]⟩
      | null =>
        simp only [Except.ok.injEq] at hr
        exact ⟨[Json.null], by rw [← hr]⟩
      | bool b =>
        simp only [Except.ok.injEq] at hr
        exact ⟨[Json.bool b], by rw [← hr]⟩
      | num n =>
        simp only [Except.ok.injEq] at hr
        exact ⟨[Json.num n], by rw [← hr]⟩
      | str t =>
        simp only [Except.ok.injEq] at hr
        exact ⟨[Json.str t], by rw [← hr]⟩
      | obj fs =>
        simp only [Except.ok.injEq] at hr
        exact ⟨[Json.obj fs], by rw [← hr]⟩
  · intro v hp hv
    rw [generate_sql_query_result, hp]
    cases v with
    | arr xs => exact absurd rfl (hv xs)
    | null => rfl
    | bool b => rfl
    | num n => rfl
    | str t => rfl
    | obj fs => rfl

/-- Witness for C9: a non-array parse (`"5"`) is wrapped, and non-JSON
output (`"five"`) propagates the error. -/
theorem C9_no_textual_fallback_witness :
    generate_sql_query_result "SELECT COUNT(*) FROM Employee" "5" =
      Except.ok { query := "SELECT COUNT(*) FROM Employee",
                  result := Json.arr [Json.num 5] } ∧
    generate_sql_query_result "SELECT COUNT(*) FROM Employee" "five" =
      Except.error "SyntaxError: Unexpected token in JSON" :=
  ⟨(C9_no_textual_fallback "SELECT COUNT(*) FROM Employee" "5").2.2
      (Json.num 5) rfl (fun _ h => Json.noConfusion h),
   (C9_no_textual_fallback "SELECT COUNT(*) FROM Employee" "five").1 rfl⟩

/-- Rendering a cell of an object row never throws. -/
theorem renderCell_obj_ok (gs : List (String × Json)) (h : String) :
    ∃ out, renderCell (Json.obj gs) h = Except.ok out := by
  have hg : getProp (Json.obj gs) h = Except.ok (lookupField gs h) := rfl
  rw [renderCell, hg]
  cases lookupField gs h with
  | none => exact ⟨"", rfl⟩
  | some v => cases v <;> exact ⟨_, rfl⟩

/-- When the callback succeeds on every element, `mapExcept` succeeds. -/
theorem mapExcept_ok_of_forall {α β ε : Type} (f : α → Except ε β) (l : List α)
    (h : ∀ a ∈ l, ∃ b, f a = Except.ok b) :
    ∃ bs, mapExcept f l = Except.ok bs := by
  induction l with
  | nil => exact ⟨[], rfl⟩
  | cons a l ih =>
    obtain ⟨b, hb⟩ := h a (List.mem_cons_self a l)
    obtain ⟨bs, hbs⟩ := ih (fun x hx => h x (List.mem_cons_of_mem a hx))
    refine ⟨b :: bs, ?_⟩
    simp only [mapExcept, hb, hbs]

/-- Rendering an object row never throws. -/
theorem renderRow_obj_ok (headers : List String) (gs : List (String × Json)) :
    ∃ out, renderRow headers (Json.obj gs) = Except.ok out := by
  obtain ⟨vals, hv⟩ := mapExcept_ok_of_forall (renderCell (Json.obj gs)) headers
    (fun hname _ => renderCell_obj_ok gs hname)
  refine ⟨"| " ++ String.intercalate " | " vals ++ " |", ?_⟩
  simp only [renderRow, hv]

/-- Claim C10: `formatJsonAsMarkdownTable` is total on strings (the
embedding is a total function; the `try`/`catch` turns the only throws
— the JSON `SyntaxError` and the `TypeError` on a `null` row — into
returned strings).  Invalid JSON yields a string beginning
`"Error formatting data as table: "`; a non-array or empty-array value
yields `"No tabular data available"`; for an array of objects the
column headers come solely from the keys of the first element; and a
`null` or missing (`undefined`) cell value renders as the empty
string. -/
theorem C10_format_table (s : String) :
    (parseJson s = none →
      ∃ e, formatJsonAsMarkdownTable s = "Error formatting data as table: " ++ e) ∧
    (∀ v : Json, parseJson s = some v → (∀ x xs, v ≠ Json.arr (x :: xs)) →
      formatJsonAsMarkdownTable s = "No tabular data available") ∧
    (∀ (fs : List (String × Json)) (rest : List Json),
      parseJson s = some (Json.arr (Json.obj fs :: rest)) →
      (∀ r ∈ rest, ∃ gs, r = Json.obj gs) →
      ∃ tail, formatJsonAsMarkdownTable s =
        String.intercalate "\n"
          (("| " ++ String.intercalate " | " (fs.map Prod.fst) ++ " |") :: tail)) ∧
    (∀ (gs : List (String × Json)) (key : String),
      lookupField gs key = none ∨ lookupField gs key = some Json.null →
      renderCell (Json.obj gs) key = Except.ok "") := by
  refine ⟨?_, ?_, ?_, ?_⟩
  · intro h
    exact ⟨"SyntaxError: Unexpected token in JSON",
      by simp only [formatJsonAsMarkdownTable, h]⟩
  · intro v hp hv
    cases v with
    | arr xs =>
      cases xs with
      | nil => simp [formatJsonAsMarkdownTable, hp]
      | cons x rest => exact absurd rfl (hv x rest)
    | null => simp [formatJsonAsMarkdownTable, hp]
    | bool b => simp [formatJsonAsMarkdownTable, hp]
    | num n => simp [formatJsonAsMarkdownTable, hp]
    | str t => simp [formatJsonAsMarkdownTable, hp]
    | obj fs => simp [formatJsonAsMarkdownTable, hp]
  · intro fs rest hp hall
    have hrows : ∀ r ∈ Json.obj fs :: rest, ∃ out,
        renderRow (objKeys (Json.obj fs)) r = Except.ok out := by
      intro r hr
      rcases List.mem_cons.mp hr with hfirst | hrest
      · subst hfirst
        exact renderRow_obj_ok _ fs
      · obtain ⟨gs, hgs⟩ := hall r hrest
        subst hgs
        exact renderRow_obj_ok _ gs
    obtain ⟨dataRows, hdata⟩ :=
      mapExcept_ok_of_forall (renderRow (objKeys (Json.obj fs)))
        (Json.obj fs :: rest) hrows
    refine ⟨("| " ++ String.intercalate " | "
        ((fs.map Prod.fst).map (fun _ => "---")) ++ " |") :: dataRows, ?_⟩
    simp only [formatJsonAsMarkdownTable, hp, isObjectType, if_true, objKeys] at *
    rw [hdata]
  · intro gs key hk
    have hg : getProp (Json.obj gs) key = Except.ok (lookupField gs key) := rfl
    rw [renderCell, hg]
    rcases hk with hk | hk <;> rw [hk]

/-- Witness for C10 across its four behaviors: non-JSON input, a
non-array value, a two-row array of objects (headers from the first
row only), and a `null` cell. -/
theorem C10_format_table_witness :
    (∃ e, formatJsonAsMarkdownTable "five" =
      "Error formatting data as table: " ++ e) ∧
    formatJsonAsMarkdownTable "\x7b\"a\":1\x7d" = "No tabular data available" ∧
    (∃ tail, formatJsonAsMarkdownTable
        "[\x7b\"a\":1,\"b\":null\x7d,\x7b\"a\":2,\"c\":3\x7d]" =
      String.intercalate "\n" (("| " ++ String.intercalate " | " ["a", "b"] ++ " |") :: tail)) ∧
    renderCell (Json.obj [("a", Json.num 1), ("b", Json.null)]) "b" = Except.ok "" := by
  refine ⟨(C10_format_table "five").1 rfl, ?_, ?_, ?_⟩
  · exact (C10_format_table "\x7b\"a\":1\x7d").2.1 (Json.obj [("a", Json.num 1)]) rfl
      (fun _ _ h => Json.noConfusion h)
  · exact (C10_format_table "[\x7b\"a\":1,\"b\":null\x7d,\x7b\"a\":2,\"c\":3\x7d]").2.2.1
      [("a", Json.num 1), ("b", Json.null)] [Json.obj [("a", Json.num 2), ("c", Json.num 3)]]
      rfl
      (by
        intro r hr
        simp only [List.mem_singleton] at hr
        subst hr
        exact ⟨_, rfl⟩)
  · exact (C10_format_table "").2.2.2 [("a", Json.num 1), ("b", Json.null)] "b"
      (Or.inr rfl)

end SqlAgent
